import Mathlib

/-!
Shallow embedding of the core of gitlab-util (pkg/ggl/mergeRequestManager.go):
the merge-target task record, the processMerge state machine, the enqueuer
garbage-collection pass, the staleness-gated sync procedures, and ClearMerge.

Modelling conventions:
- Instants (Go time.Time) are integers counting seconds; one minute is 60.
- Each call that in Go reads the clock, performs a remote API call, or writes
  the store is given the relevant values explicitly: the clock reading is a
  parameter (a single instant per worker step, since all clock reads inside
  one processMerge step are adjacent), remote outcomes are an environment
  record, and store writes are returned.
- The pebble key-value store is an association list from string keys to
  values; Set overwrites the key, Delete removes it, and a bounded prefix
  iteration is a filter on keys starting with the bound.
-/

namespace Ggl

/-- One minute, in the seconds-based time scale used throughout. -/
def minute : Int := 60

/-- The mergeTarget record of mergeRequestManager.go (field names as in Go).
Times are instants on the integer time scale. -/
structure MergeTarget where
  Id : Int
  ProjectID : Int
  MergeID : Int
  DiffHash : String
  Info : String
  Latest : Int
  Next : Int
  Active : Bool
deriving DecidableEq, Repr

/-- RenderDiffString: concatenates the Diff text of every fragment, each
followed by a newline (Go: diffText += fmt.Sprintf of the Diff and a newline). -/
def RenderDiffString (diff : List String) : String :=
  diff.foldl (fun acc d => acc ++ d ++ "\n") ""

/-- The reschedule transition: Next becomes the clock reading plus the delay,
Info becomes the given reason (the Go method then persists the record; here
persistence is recorded by the caller). -/
def reschedule (now : Int) (target : MergeTarget) (delay : Int) (info : String) :
    MergeTarget :=
  { target with Next := now + delay, Info := info }

/-- The stopProcessing transition: Active becomes false, Next becomes the clock
reading, Info becomes the given reason. -/
def stopProcessing (now : Int) (target : MergeTarget) (info : String) :
    MergeTarget :=
  { target with Active := false, Next := now, Info := info }

/-- The first switch arm of processMerge: the transient or blocking detailed
merge statuses that cause a 1-minute reschedule. -/
def transientStatuses : List String :=
  ["approvals_syncing", "blocked_status", "checking", "ci_must_pass",
   "ci_still_running", "conflict", "external_status_checks",
   "jira_association_missing", "need_rebase", "unchecked", "locked_paths",
   "locked_lfs_files"]

/-- The permanently blocking detailed merge statuses of processMerge, which
stop the task with reason "aborted - " followed by the status. -/
def blockingStatuses : List String :=
  ["discussions_not_resolved", "draft_status", "not_open", "requested_changes"]

/-- Outcomes of the remote API calls a single processMerge step may issue:
the diff listing (none encodes an error), and success of the approve and
accept calls. -/
structure RemoteEnv where
  pullDiffResult : Option (List String)
  approveOk : Bool
  acceptOk : Bool
deriving DecidableEq, Repr

/-- Observable outcome of one processMerge step: the task record persisted via
storeTargetSilent (none when no write happens), and whether the approve
respectively accept remote mutation was issued. -/
structure ProcessResult where
  stored : Option MergeTarget
  approveCalled : Bool
  acceptCalled : Bool
deriving DecidableEq, Repr

/-- The processMerge state machine of mergeRequestManager.go. An inactive
target returns immediately. Otherwise Latest is set to the clock reading and
the detailed merge status is dispatched exactly as the Go switch does. -/
def processMerge (env : RemoteEnv) (now : Int) (target : MergeTarget)
    (mergeStatus : String) : ProcessResult :=
  if !target.Active then ⟨none, false, false⟩
  else
    let target := { target with Latest := now }
    if mergeStatus ∈ transientStatuses then
      ⟨some (reschedule now target minute
          ("status " ++ mergeStatus ++ " - will check again in 1 minute")),
        false, false⟩
    else if mergeStatus = "not_approved" then
      match env.pullDiffResult with
      | none =>
          ⟨some (reschedule now target minute
              "error pulling diff - will check again in 1 minute"),
            false, false⟩
      | some diff =>
          let currentDiff := RenderDiffString diff
          if currentDiff ≠ target.DiffHash then
            ⟨some (stopProcessing now target "aborted - diff changed"),
              false, false⟩
          else if env.approveOk then
            ⟨some (reschedule now target 0 "approved - will try to merge"),
              true, false⟩
          else
            ⟨some (reschedule now target minute
                "error approving - will check again in 1 minute"),
              true, false⟩
    else if mergeStatus = "mergeable" then
      if env.acceptOk then
        ⟨some (stopProcessing now target "merged"), false, true⟩
      else
        ⟨some (reschedule now target minute
            "error merging - will check again in 1 minute"),
          false, true⟩
    else if mergeStatus ∈ blockingStatuses then
      ⟨some (stopProcessing now target ("aborted - " ++ mergeStatus)),
        false, false⟩
    else
      ⟨none, false, false⟩

/-- Generic pebble Set on the association-list store model: overwrites any
entry under the key. -/
def dbSet {α : Type} (db : List (String × α)) (k : String) (v : α) :
    List (String × α) :=
  (k, v) :: db.filter (fun e => e.1 ≠ k)

/-- Generic pebble Get on the association-list store model. -/
def dbGet {α : Type} (db : List (String × α)) (k : String) : Option α :=
  (db.find? (fun e => e.1 = k)).map Prod.snd

/-- One pass of the body of the processEnqueuer loop over the loaded
merge-target records: targets that are Active with Next before the clock
reading are put on the process queue; inactive targets whose Latest is before
the clock reading minus 30 minutes and whose Info is not the diff-changed
audit marker are deleted. -/
structure EnqueuerPass where
  enqueued : List MergeTarget
  deleted : List MergeTarget
deriving DecidableEq, Repr

/-- The per-target conditions of one enqueuer pass (see processEnqueuer in
mergeRequestManager.go). -/
def processEnqueuerPass (now : Int) (targets : List MergeTarget) : EnqueuerPass :=
  { enqueued := targets.filter fun t => t.Active ∧ t.Next < now,
    deleted := targets.filter fun t =>
      t.Active = false ∧ t.Latest < now - 30 * minute ∧
        t.Info ≠ "aborted - diff changed" }

/-- ClearMerge: overwrites the merge-target record under the target key with a
fresh record; only Id, Active, Next, Latest and Info are set, every other Go
struct field is the zero value of its type. -/
def ClearMerge (now : Int) (id : Int) (db : List (String × MergeTarget)) :
    List (String × MergeTarget) :=
  dbSet db ("merge-target-" ++ toString id)
    { Id := id, ProjectID := 0, MergeID := 0, DiffHash := "",
      Info := "cleared", Latest := now, Next := now, Active := false }

/-- The stored refresh timestamps of the two resource classes (none models a
key absent from the store, read back as the Go zero time). -/
structure SyncState where
  tsProjects : Option Int
  tsMr : Option Int
deriving DecidableEq, Repr

/-- Staleness test: Go computes time.Since(lastFetch) > ttl, where a missing
timestamp reads as the zero time, whose age always exceeds any of the TTLs
used here. -/
def outdated (now : Int) (ts : Option Int) (ttl : Int) : Bool :=
  match ts with
  | none => true
  | some t => decide (now - t > ttl)

/-- Outcome of FetchProjectsIfNotOutdated: resulting timestamp state, whether
a remote refresh ran, and whether the call returned without error. -/
structure FetchProjectsResult where
  state : SyncState
  refreshRan : Bool
  ok : Bool
deriving DecidableEq, Repr

/-- FetchProjectsIfNotOutdated: refreshes the project catalog when the stored
timestamp is older than 60 minutes; on fetch success the timestamp is set to
the clock reading, on fetch error the function returns the error leaving the
timestamp untouched. -/
def FetchProjectsIfNotOutdated (now : Int) (fetchOk : Bool) (s : SyncState) :
    FetchProjectsResult :=
  if outdated now s.tsProjects (60 * minute) then
    if fetchOk then ⟨{ s with tsProjects := some now }, true, true⟩
    else ⟨s, true, false⟩
  else ⟨s, false, true⟩

/-- Outcome of GetOrFetchMergeRequests: resulting timestamp state, whether the
project respectively merge-request refresh ran, and overall success. -/
structure GetOrFetchResult where
  state : SyncState
  projRefreshRan : Bool
  mrRefreshRan : Bool
  ok : Bool
deriving DecidableEq, Repr

/-- GetOrFetchMergeRequests: first runs the project staleness check, failing
if it fails; then refreshes the merge-request snapshot set when the stored
timestamp is older than 1 minute or force is set, writing the timestamp only
after a successful FetchMergeRequests and returning the error (without
touching the timestamp) otherwise. -/
def GetOrFetchMergeRequests (now : Int) (projFetchOk mrFetchOk force : Bool)
    (s : SyncState) : GetOrFetchResult :=
  let pr := FetchProjectsIfNotOutdated now projFetchOk s
  if !pr.ok then ⟨pr.state, pr.refreshRan, false, false⟩
  else if outdated now pr.state.tsMr minute || force then
    if mrFetchOk then
      ⟨{ pr.state with tsMr := some now }, pr.refreshRan, true, true⟩
    else ⟨pr.state, pr.refreshRan, true, false⟩
  else ⟨pr.state, pr.refreshRan, false, true⟩

/-- A merge request as stored by FetchMergeRequests: its numeric ID and the
rest of the snapshot, opaque here. -/
structure Mr where
  ID : Int
  payload : String
deriving DecidableEq, Repr

/-- mrKey: the type-prefixed store key of a merge request. -/
def mrKey (id : Int) : String := "mr-" ++ toString id

/-- Whether a store key lies in the iteration bounds pebble derives for the
"mr-" key range (exactly the keys starting with those three characters). -/
def inMrRange (k : String) : Bool := k.data.take 3 = "mr-".data

/-- The body of the paging loop of FetchMergeRequests for one merge request:
record its key as seen and upsert the snapshot under that key. -/
def storeMr (acc : List (String × Mr) × List String) (mr : Mr) :
    List (String × Mr) × List String :=
  (dbSet acc.1 (mrKey mr.ID) mr, mrKey mr.ID :: acc.2)

/-- One page of the paging loop of FetchMergeRequests. -/
def storePage (acc : List (String × Mr) × List String) (page : List Mr) :
    List (String × Mr) × List String :=
  page.foldl storeMr acc

/-- FetchMergeRequests on a successful run: pages through the remote listing,
upserting every returned object and tracking the seen keys, then deletes every
key in the "mr-" range that was not seen in this pass. -/
def FetchMergeRequests (pages : List (List Mr)) (db : List (String × Mr)) :
    List (String × Mr) :=
  let res := pages.foldl storePage (db, [])
  res.1.filter fun e => ¬(inMrRange e.1 = true) ∨ e.1 ∈ res.2

/-- C1: for a task processed with remote status "not_approved" whose diff
fetch succeeds, the approval call is attempted exactly when the recomputed
diff concatenation equals the stored fingerprint; on any difference no
approval call is made and the task is persisted with Active false and Info
"aborted - diff changed". -/
theorem fingerprint_guard (env : RemoteEnv) (now : Int) (t : MergeTarget)
    (d : List String) (hA : t.Active = true)
    (hd : env.pullDiffResult = some d) :
    (RenderDiffString d = t.DiffHash →
      (processMerge env now t "not_approved").approveCalled = true) ∧
    (RenderDiffString d ≠ t.DiffHash →
      (processMerge env now t "not_approved").approveCalled = false ∧
      (processMerge env now t "not_approved").stored =
        some { t with Latest := now, Active := false, Next := now,
                      Info := "aborted - diff changed" }) := by
  constructor
  · intro hm
    cases h : env.approveOk <;>
      simp [processMerge, transientStatuses, hA, hd, hm, h, reschedule]
  · intro hm
    simp [processMerge, transientStatuses, hA, hd, hm, stopProcessing]

theorem fingerprint_guard_witness :
    ((⟨1, 2, 3, "x\n", "enabled", 0, 0, true⟩ : MergeTarget).Active = true) ∧
    ((⟨some ["x"], true, true⟩ : RemoteEnv).pullDiffResult = some ["x"]) ∧
    ((RenderDiffString ["x"] =
        (⟨1, 2, 3, "x\n", "enabled", 0, 0, true⟩ : MergeTarget).DiffHash →
      (processMerge ⟨some ["x"], true, true⟩ 7
        ⟨1, 2, 3, "x\n", "enabled", 0, 0, true⟩
        "not_approved").approveCalled = true) ∧
    (RenderDiffString ["x"] ≠
        (⟨1, 2, 3, "x\n", "enabled", 0, 0, true⟩ : MergeTarget).DiffHash →
      (processMerge ⟨some ["x"], true, true⟩ 7
        ⟨1, 2, 3, "x\n", "enabled", 0, 0, true⟩
        "not_approved").approveCalled = false ∧
      (processMerge ⟨some ["x"], true, true⟩ 7
        ⟨1, 2, 3, "x\n", "enabled", 0, 0, true⟩ "not_approved").stored =
        some { (⟨1, 2, 3, "x\n", "enabled", 0, 0, true⟩ : MergeTarget) with
                Latest := 7, Active := false, Next := 7,
                Info := "aborted - diff changed" })) :=
  ⟨rfl, rfl, fingerprint_guard ⟨some ["x"], true, true⟩ 7
    ⟨1, 2, 3, "x\n", "enabled", 0, 0, true⟩ ["x"] rfl rfl⟩

/-- C5 counterexample: the decision is not a function of the (task, status)
pair alone. With the same task and the same status "not_approved", a run whose
approval call succeeds and a run whose approval call fails persist different
Info; and with the same task and status "ci_still_running", two runs at
different clock readings persist different Next. -/
theorem decide_not_pair_determined :
    processMerge ⟨some ["d"], true, true⟩ 0
        ⟨1, 2, 3, "d\n", "enabled", 0, 0, true⟩ "not_approved" ≠
      processMerge ⟨some ["d"], false, true⟩ 0
        ⟨1, 2, 3, "d\n", "enabled", 0, 0, true⟩ "not_approved" ∧
    processMerge ⟨some ["d"], true, true⟩ 0
        ⟨1, 2, 3, "d\n", "enabled", 0, 0, true⟩ "ci_still_running" ≠
      processMerge ⟨some ["d"], true, true⟩ 5
        ⟨1, 2, 3, "d\n", "enabled", 0, 0, true⟩ "ci_still_running" := by
  decide

/-- C5 amended: the decision is deterministic in all of its actual inputs:
two evaluations with the same task, the same status, the same clock reading
and the same remote-call outcomes (diff fetch result, approve and accept
success) yield the same action and the same resulting task fields. -/
theorem decide_deterministic (env env' : RemoteEnv) (now now' : Int)
    (t t' : MergeTarget) (s s' : String) (henv : env = env')
    (hnow : now = now') (ht : t = t') (hs : s = s') :
    processMerge env now t s = processMerge env' now' t' s' := by
  subst henv hnow ht hs
  rfl

theorem decide_deterministic_witness :
    ((⟨some ["d"], true, true⟩ : RemoteEnv) = ⟨some ["d"], true, true⟩) ∧
    ((0 : Int) = 0) ∧
    ((⟨1, 2, 3, "d\n", "enabled", 0, 0, true⟩ : MergeTarget) =
      ⟨1, 2, 3, "d\n", "enabled", 0, 0, true⟩) ∧
    (("not_approved" : String) = "not_approved") ∧
    processMerge ⟨some ["d"], true, true⟩ 0
        ⟨1, 2, 3, "d\n", "enabled", 0, 0, true⟩ "not_approved" =
      processMerge ⟨some ["d"], true, true⟩ 0
        ⟨1, 2, 3, "d\n", "enabled", 0, 0, true⟩ "not_approved" :=
  ⟨rfl, rfl, rfl, rfl,
    decide_deterministic ⟨some ["d"], true, true⟩ ⟨some ["d"], true, true⟩ 0 0
      ⟨1, 2, 3, "d\n", "enabled", 0, 0, true⟩
      ⟨1, 2, 3, "d\n", "enabled", 0, 0, true⟩
      "not_approved" "not_approved" rfl rfl rfl rfl⟩

/-- C6: for an active task with status "not_approved" whose recomputed diff
matches the fingerprint, a successful approval call reschedules with zero
delay (Next equal to Latest, both the clock reading), Active still true, Info
"approved - will try to merge"; a failed approval call reschedules with a
1-minute delay. The approval call is issued in both cases. -/
theorem approve_on_match (env : RemoteEnv) (now : Int) (t : MergeTarget)
    (d : List String) (hA : t.Active = true)
    (hd : env.pullDiffResult = some d)
    (hm : RenderDiffString d = t.DiffHash) :
    (env.approveOk = true →
      processMerge env now t "not_approved" =
        ⟨some { t with
                  Latest := now,
                  Next := now,
                  Info := "approved - will try to merge" }, true, false⟩) ∧
    (env.approveOk = false →
      processMerge env now t "not_approved" =
        ⟨some { t with
                  Latest := now,
                  Next := now + minute,
                  Info := "error approving - will check again in 1 minute" },
          true, false⟩) := by
  constructor <;> intro h <;>
    simp [processMerge, transientStatuses, hA, hd, hm, h, reschedule]

theorem approve_on_match_witness :
    ((⟨1, 2, 3, "x\n", "enabled", 0, 0, true⟩ : MergeTarget).Active = true) ∧
    ((⟨some ["x"], true, true⟩ : RemoteEnv).pullDiffResult = some ["x"]) ∧
    (RenderDiffString ["x"] =
      (⟨1, 2, 3, "x\n", "enabled", 0, 0, true⟩ : MergeTarget).DiffHash) ∧
    (((⟨some ["x"], true, true⟩ : RemoteEnv).approveOk = true →
      processMerge ⟨some ["x"], true, true⟩ 9
          ⟨1, 2, 3, "x\n", "enabled", 0, 0, true⟩ "not_approved" =
        ⟨some { (⟨1, 2, 3, "x\n", "enabled", 0, 0, true⟩ : MergeTarget) with
                  Latest := 9,
                  Next := 9,
                  Info := "approved - will try to merge" }, true, false⟩) ∧
    ((⟨some ["x"], true, true⟩ : RemoteEnv).approveOk = false →
      processMerge ⟨some ["x"], true, true⟩ 9
          ⟨1, 2, 3, "x\n", "enabled", 0, 0, true⟩ "not_approved" =
        ⟨some { (⟨1, 2, 3, "x\n", "enabled", 0, 0, true⟩ : MergeTarget) with
                  Latest := 9,
                  Next := 9 + minute,
                  Info := "error approving - will check again in 1 minute" },
          true, false⟩)) :=
  ⟨rfl, rfl, rfl, approve_on_match ⟨some ["x"], true, true⟩ 9
    ⟨1, 2, 3, "x\n", "enabled", 0, 0, true⟩ ["x"] rfl rfl rfl⟩

/-- C7: for an active task whose remote status is one of the transient or
blocking codes, the decision reschedules with a fixed 1-minute delay: the
persisted record keeps Active true, has Latest set to the clock reading, Next
equal to Latest plus one minute, and the announced Info text, while all other
fields are unchanged and no approve or accept call is issued. -/
theorem transient_reschedules (env : RemoteEnv) (now : Int) (t : MergeTarget)
    (s : String) (hA : t.Active = true) (hs : s ∈ transientStatuses) :
    ∃ r, processMerge env now t s = ⟨some r, false, false⟩ ∧
      r.Active = true ∧ r.Latest = now ∧ r.Next = r.Latest + minute ∧
      r.Info = "status " ++ s ++ " - will check again in 1 minute" ∧
      r.Id = t.Id ∧ r.ProjectID = t.ProjectID ∧ r.MergeID = t.MergeID ∧
      r.DiffHash = t.DiffHash := by
  refine ⟨{ t with
              Latest := now,
              Next := now + minute,
              Info := "status " ++ s ++ " - will check again in 1 minute" },
    ?_, by simp [hA], rfl, rfl, rfl, rfl, rfl, rfl, rfl⟩
  simp [processMerge, hA, hs, reschedule]

theorem transient_reschedules_witness :
    ((⟨1, 2, 3, "d\n", "enabled", 0, 0, true⟩ : MergeTarget).Active = true) ∧
    (("ci_still_running" : String) ∈ transientStatuses) ∧
    (∃ r, processMerge ⟨some ["d"], true, true⟩ 11
        ⟨1, 2, 3, "d\n", "enabled", 0, 0, true⟩ "ci_still_running" =
          ⟨some r, false, false⟩ ∧
      r.Active = true ∧ r.Latest = 11 ∧ r.Next = r.Latest + minute ∧
      r.Info = "status " ++ "ci_still_running" ++
        " - will check again in 1 minute" ∧
      r.Id = (⟨1, 2, 3, "d\n", "enabled", 0, 0, true⟩ : MergeTarget).Id ∧
      r.ProjectID =
        (⟨1, 2, 3, "d\n", "enabled", 0, 0, true⟩ : MergeTarget).ProjectID ∧
      r.MergeID =
        (⟨1, 2, 3, "d\n", "enabled", 0, 0, true⟩ : MergeTarget).MergeID ∧
      r.DiffHash =
        (⟨1, 2, 3, "d\n", "enabled", 0, 0, true⟩ : MergeTarget).DiffHash) :=
  ⟨rfl, by decide, transient_reschedules ⟨some ["d"], true, true⟩ 11
    ⟨1, 2, 3, "d\n", "enabled", 0, 0, true⟩ "ci_still_running" rfl
    (by decide)⟩

/-- C8: for an active task whose remote status is one of the permanently
blocking codes, the task is persisted with Active false, Next and Latest at
the clock reading, and Info "aborted - " followed by the status; no approve
or accept call is issued. -/
theorem blocking_stops (env : RemoteEnv) (now : Int) (t : MergeTarget)
    (s : String) (hA : t.Active = true) (hs : s ∈ blockingStatuses) :
    processMerge env now t s =
      ⟨some { t with
                Latest := now,
                Active := false,
                Next := now,
                Info := "aborted - " ++ s }, false, false⟩ := by
  fin_cases hs <;>
    simp [processMerge, transientStatuses, blockingStatuses, hA,
      stopProcessing]

theorem blocking_stops_witness :
    ((⟨1, 2, 3, "d\n", "enabled", 0, 0, true⟩ : MergeTarget).Active = true) ∧
    (("draft_status" : String) ∈ blockingStatuses) ∧
    processMerge ⟨some ["d"], true, true⟩ 13
        ⟨1, 2, 3, "d\n", "enabled", 0, 0, true⟩ "draft_status" =
      ⟨some { (⟨1, 2, 3, "d\n", "enabled", 0, 0, true⟩ : MergeTarget) with
                Latest := 13,
                Active := false,
                Next := 13,
                Info := "aborted - " ++ "draft_status" }, false, false⟩ :=
  ⟨rfl, by decide, blocking_stops ⟨some ["d"], true, true⟩ 13
    ⟨1, 2, 3, "d\n", "enabled", 0, 0, true⟩ "draft_status" rfl (by decide)⟩

/-- C9: for a status code outside the recognized set the decision performs no
state change at all: no task record is written and no approve or accept call
is issued, whether the task is active or not (the total function also shows
the dispatch cannot fail). -/
theorem unknown_status_noop (env : RemoteEnv) (now : Int) (t : MergeTarget)
    (s : String) (h1 : s ∉ transientStatuses) (h2 : s ≠ "not_approved")
    (h3 : s ≠ "mergeable") (h4 : s ∉ blockingStatuses) :
    processMerge env now t s = ⟨none, false, false⟩ := by
  cases hA : t.Active <;> simp [processMerge, hA, h1, h2, h3, h4]

theorem unknown_status_noop_witness :
    (("cannot_be_merged_recheck" : String) ∉ transientStatuses) ∧
    (("cannot_be_merged_recheck" : String) ≠ "not_approved") ∧
    (("cannot_be_merged_recheck" : String) ≠ "mergeable") ∧
    (("cannot_be_merged_recheck" : String) ∉ blockingStatuses) ∧
    processMerge ⟨some ["d"], true, true⟩ 17
        ⟨1, 2, 3, "d\n", "enabled", 0, 0, true⟩ "cannot_be_merged_recheck" =
      ⟨none, false, false⟩ :=
  ⟨by decide, by decide, by decide, by decide,
    unknown_status_noop ⟨some ["d"], true, true⟩ 17
      ⟨1, 2, 3, "d\n", "enabled", 0, 0, true⟩ "cannot_be_merged_recheck"
      (by decide) (by decide) (by decide) (by decide)⟩

/-- C2: on an enqueuer pass, a loaded task record is deleted exactly when it
is inactive, its Latest is older than 30 minutes before the clock reading,
and its Info is not the diff-changed audit marker; in particular a record
whose Info is "aborted - diff changed" is never deleted, whatever its age. -/
theorem enqueuer_gc (now : Int) (targets : List MergeTarget)
    (t : MergeTarget) (h : t ∈ targets) :
    t ∈ (processEnqueuerPass now targets).deleted ↔
      t.Active = false ∧ t.Latest < now - 30 * minute ∧
        t.Info ≠ "aborted - diff changed" := by
  simp [processEnqueuerPass, List.mem_filter, h]

theorem enqueuer_gc_witness :
    ((⟨1, 0, 0, "", "aborted - diff changed", 0, 0, false⟩ : MergeTarget) ∈
      [(⟨1, 0, 0, "", "aborted - diff changed", 0, 0, false⟩ : MergeTarget)]) ∧
    ((⟨1, 0, 0, "", "aborted - diff changed", 0, 0, false⟩ : MergeTarget) ∈
        (processEnqueuerPass 100000
          [(⟨1, 0, 0, "", "aborted - diff changed", 0, 0,
            false⟩ : MergeTarget)]).deleted ↔
      (⟨1, 0, 0, "", "aborted - diff changed", 0, 0,
        false⟩ : MergeTarget).Active = false ∧
      (⟨1, 0, 0, "", "aborted - diff changed", 0, 0,
        false⟩ : MergeTarget).Latest < 100000 - 30 * minute ∧
      (⟨1, 0, 0, "", "aborted - diff changed", 0, 0,
        false⟩ : MergeTarget).Info ≠ "aborted - diff changed") :=
  ⟨by decide, enqueuer_gc 100000
    [⟨1, 0, 0, "", "aborted - diff changed", 0, 0, false⟩]
    ⟨1, 0, 0, "", "aborted - diff changed", 0, 0, false⟩ (by decide)⟩

/-- C3: refresh gating and timestamp discipline of the two sync procedures.
The project refresh runs only when the stored project timestamp is older than
60 minutes; the merge-request refresh runs only when its stored timestamp is
older than 1 minute or force is set; a failed fetch leaves the corresponding
timestamp unchanged; a timestamp changes only when its refresh ran, and after
a successful refresh it equals the clock reading. -/
theorem refresh_gating (now : Int) (pOk mOk force : Bool) (s : SyncState) :
    ((GetOrFetchMergeRequests now pOk mOk force s).projRefreshRan = true →
      outdated now s.tsProjects (60 * minute) = true) ∧
    ((GetOrFetchMergeRequests now pOk mOk force s).mrRefreshRan = true →
      outdated now s.tsMr minute = true ∨ force = true) ∧
    ((GetOrFetchMergeRequests now pOk mOk force s).projRefreshRan = false →
      (GetOrFetchMergeRequests now pOk mOk force s).state.tsProjects =
        s.tsProjects) ∧
    ((GetOrFetchMergeRequests now pOk mOk force s).mrRefreshRan = false →
      (GetOrFetchMergeRequests now pOk mOk force s).state.tsMr = s.tsMr) ∧
    (pOk = false →
      (GetOrFetchMergeRequests now pOk mOk force s).state.tsProjects =
        s.tsProjects) ∧
    (mOk = false →
      (GetOrFetchMergeRequests now pOk mOk force s).state.tsMr = s.tsMr) ∧
    ((GetOrFetchMergeRequests now pOk mOk force s).projRefreshRan = true →
      pOk = true →
      (GetOrFetchMergeRequests now pOk mOk force s).state.tsProjects =
        some now) ∧
    ((GetOrFetchMergeRequests now pOk mOk force s).mrRefreshRan = true →
      mOk = true →
      (GetOrFetchMergeRequests now pOk mOk force s).state.tsMr = some now) := by
  cases pOk <;> cases mOk <;> cases force <;>
    rcases hP : outdated now s.tsProjects (60 * minute) <;>
    rcases hM : outdated now s.tsMr minute <;>
    simp [GetOrFetchMergeRequests, FetchProjectsIfNotOutdated, hP, hM]

theorem refresh_gating_witness :
    ((GetOrFetchMergeRequests 100000 true true false
        ⟨some 500, some 9000⟩).projRefreshRan = true) ∧
    outdated 100000 (some 500) (60 * minute) = true :=
  ⟨by decide, (refresh_gating 100000 true true false ⟨some 500, some 9000⟩).1
    (by decide)⟩

/-- C10: ClearMerge overwrites the whole record stored under the target key:
reading that key afterwards yields, for any prior store contents, exactly the
record with the given id, Active false, Info "cleared", Latest and Next at
the cancellation instant, and zero values for the parent project id, the
review-item local id and the content fingerprint. -/
theorem clearMerge_overwrites (now id : Int)
    (db : List (String × MergeTarget)) :
    dbGet (ClearMerge now id db) ("merge-target-" ++ toString id) =
      some { Id := id, ProjectID := 0, MergeID := 0, DiffHash := "",
             Info := "cleared", Latest := now, Next := now,
             Active := false } := by
  simp [ClearMerge, dbGet, dbSet, List.find?]

/-- Keys present after a dbSet: the written key together with the keys that
were already present. -/
theorem mem_keys_dbSet {α : Type} (db : List (String × α)) (k k' : String)
    (v : α) :
    k ∈ (dbSet db k' v).map Prod.fst ↔ k = k' ∨ k ∈ db.map Prod.fst := by
  by_cases h : k = k'
  · subst h
    simp [dbSet]
  · simp only [dbSet, List.map_cons, List.mem_cons, List.mem_map,
      List.mem_filter, decide_eq_true_eq]
    constructor
    · rintro (h1 | ⟨e, ⟨he, hne⟩, hk⟩)
      · exact Or.inl h1
      · exact Or.inr ⟨e, he, hk⟩
    · rintro (h1 | ⟨e, he, hk⟩)
      · exact Or.inl h1
      · refine Or.inr ⟨e, ⟨he, ?_⟩, hk⟩
        rw [hk]
        exact h

/-- The seen-key list accumulated by one page of the paging loop. -/
theorem seen_foldl_page (page : List Mr)
    (acc : List (String × Mr) × List String) :
    (page.foldl storeMr acc).2 =
      (page.map fun mr => mrKey mr.ID).reverse ++ acc.2 := by
  induction page generalizing acc with
  | nil => simp
  | cons mr rest ih =>
      rw [List.foldl_cons, ih]
      simp [storeMr]

/-- The seen-key list accumulated by the whole paging loop. -/
theorem seen_foldl_pages (pages : List (List Mr))
    (acc : List (String × Mr) × List String) :
    (pages.foldl storePage acc).2 =
      (pages.flatten.map fun mr => mrKey mr.ID).reverse ++ acc.2 := by
  induction pages generalizing acc with
  | nil => simp
  | cons page rest ih =>
      rw [List.foldl_cons, ih]
      simp [storePage, seen_foldl_page]

/-- Keys present in the store after one page of the paging loop. -/
theorem mem_keys_foldl_page (page : List Mr)
    (acc : List (String × Mr) × List String) (k : String) :
    k ∈ (page.foldl storeMr acc).1.map Prod.fst ↔
      k ∈ (page.map fun mr => mrKey mr.ID) ∨ k ∈ acc.1.map Prod.fst := by
  induction page generalizing acc with
  | nil => simp
  | cons mr rest ih =>
      rw [List.foldl_cons, ih]
      show _ ∨ k ∈ (dbSet acc.1 (mrKey mr.ID) mr).map Prod.fst ↔ _
      rw [mem_keys_dbSet]
      simp only [List.map_cons, List.mem_cons]
      tauto

/-- Keys present in the store after the whole paging loop. -/
theorem mem_keys_foldl_pages (pages : List (List Mr))
    (acc : List (String × Mr) × List String) (k : String) :
    k ∈ (pages.foldl storePage acc).1.map Prod.fst ↔
      k ∈ (pages.flatten.map fun mr => mrKey mr.ID) ∨
        k ∈ acc.1.map Prod.fst := by
  induction pages generalizing acc with
  | nil => simp
  | cons page rest ih =>
      rw [List.foldl_cons, ih]
      simp only [storePage]
      rw [mem_keys_foldl_page]
      simp only [List.flatten_cons, List.map_append, List.mem_append]
      tauto

/-- C4: after a fully successful merge-request refresh, a key in the
merge-request key range is present in the cache exactly when it is the key of
one of the objects returned by the remote listing in that pass: every
returned object is present under its key, and every previously cached
merge-request key not seen in this pass is gone. -/
theorem fetch_reconciles (pages : List (List Mr)) (db : List (String × Mr))
    (k : String) (hk : inMrRange k = true) :
    k ∈ (FetchMergeRequests pages db).map Prod.fst ↔
      k ∈ pages.flatten.map fun mr => mrKey mr.ID := by
  have hseen : ∀ k' : String,
      k' ∈ (pages.foldl storePage (db, ([] : List String))).2 ↔
        k' ∈ pages.flatten.map fun mr => mrKey mr.ID := by
    intro k'
    rw [seen_foldl_pages]
    simp
  have hkeys := mem_keys_foldl_pages pages (db, ([] : List String)) k
  unfold FetchMergeRequests
  constructor
  · intro h
    obtain ⟨e, he, hek⟩ := List.mem_map.1 h
    obtain ⟨he1, he2⟩ := List.mem_filter.1 he
    rw [decide_eq_true_eq] at he2
    rcases he2 with h2 | h2
    · rw [hek] at h2
      exact absurd hk h2
    · rw [← hek]
      exact (hseen e.1).1 h2
  · intro h
    have hs : k ∈ (pages.foldl storePage (db, ([] : List String))).2 :=
      (hseen k).2 h
    have hkmem : k ∈ (pages.foldl storePage
        (db, ([] : List String))).1.map Prod.fst := hkeys.2 (Or.inl h)
    obtain ⟨e, he, hek⟩ := List.mem_map.1 hkmem
    refine List.mem_map.2 ⟨e, List.mem_filter.2 ⟨he, ?_⟩, hek⟩
    rw [decide_eq_true_eq, hek]
    exact Or.inr hs

theorem fetch_reconciles_witness :
    inMrRange "mr-9" = true ∧
    (("mr-9" : String) ∈
        (FetchMergeRequests [[⟨1, "a"⟩], [⟨3, "c"⟩]]
          [("mr-9", ⟨9, "gone"⟩), ("project-7", ⟨7, "p"⟩)]).map Prod.fst ↔
      ("mr-9" : String) ∈
        ([[(⟨1, "a"⟩ : Mr)], [⟨3, "c"⟩]]).flatten.map fun mr => mrKey mr.ID) :=
  ⟨by decide, fetch_reconciles [[⟨1, "a"⟩], [⟨3, "c"⟩]]
    [("mr-9", ⟨9, "gone"⟩), ("project-7", ⟨7, "p"⟩)] "mr-9" (by decide)⟩

end Ggl
